import Mathlib

/-!
Verification of the boolean-function experiment notebook.

The repository is a notebook that imports helper modules
(data_generator.BooleanDatasetGenerator, data.ParityDataset, trainer.Trainer)
whose sources are not included; their behaviour is modelled here from the
spec and the notebook narrative.  Bits are Lean Bool values, the numeric
value of a bit is given by bitVal, and the parity (XOR) function maps a
list of bits to 0 or 1.
-/

namespace Booleans

/-- Numeric value of a bit: 1 for true, 0 for false. -/
def bitVal (b : Bool) : ℕ := cond b 1 0

/-- Modelled from the spec: the parity/XOR boolean function of
data.py (not in the repository sources); it outputs 1 iff the number of
1-bits in the input bit vector is odd. -/
def parity (xs : List Bool) : ℕ := xs.count true % 2

/-- Modelled from the spec: the random sampling of an N-bit input
combination inside BooleanDatasetGenerator (data_generator.py is not in
the repository sources).  The randomness source is abstracted as a seed,
whose base-2 digits give the N bits of the sampled input. -/
def sampleInput (N seed : ℕ) : List Bool :=
  (List.range N).map (fun i => seed / 2 ^ i % 2 == 1)

/-- Modelled from the spec: BooleanDatasetGenerator (data_generator.py is
not in the repository sources).  The spec says the dataset is created by
randomly sampling input combinations and calculating the corresponding
outputs using the XOR function, so one generated example pairs a sampled
N-bit input with its parity label. -/
def booleanDatasetGenerator (N seed : ℕ) : List Bool × ℕ :=
  let x := sampleInput N seed
  (x, parity x)

/-- The two-input XOR on bit values, used as the step function of the
sequential (RNN-style) formulation of parity in the notebook. -/
def xorBit (s b : ℕ) : ℕ := (s + b) % 2

/-- Modelled from the spec: the sequential RNN formulation of the XOR
function in the notebook, processing one input bit at a time, combining it
with the running state by XOR, with initial state 0. -/
def rnnParity (xs : List Bool) : ℕ :=
  xs.foldl (fun s b => xorBit s (bitVal b)) 0

/-- The number of all distinct N-bit input vectors, an N-bit input vector
being a boolean function argument assigning a bit to each of N positions. -/
def numInputs (N : ℕ) : ℕ := Fintype.card (Fin N → Bool)

lemma parity_lt_two (xs : List Bool) : parity xs < 2 := Nat.mod_lt _ (by omega)

lemma parity_eq_one_iff (xs : List Bool) :
    parity xs = 1 ↔ Odd (xs.count true) := by
  rw [parity, Nat.odd_iff]

lemma parity_eq_zero_iff (xs : List Bool) :
    parity xs = 0 ↔ ¬ Odd (xs.count true) := by
  rw [parity, Nat.odd_iff]
  omega

lemma length_sampleInput (N seed : ℕ) : (sampleInput N seed).length = N := by
  simp [sampleInput]

lemma rnnParity_foldl (xs : List Bool) :
    ∀ s : ℕ, s < 2 →
      xs.foldl (fun s b => xorBit s (bitVal b)) s = (s + xs.count true) % 2 := by
  induction xs with
  | nil => intro s hs; simp; omega
  | cons b t ih =>
      intro s hs
      have hstep : xorBit s (bitVal b) < 2 := Nat.mod_lt _ (by omega)
      rw [List.foldl_cons, ih _ hstep, List.count_cons]
      cases b <;> simp [xorBit, bitVal]
      all_goals omega

/-- C1: every example produced by the dataset generator for width N pairs
the sampled N-bit input with its parity label: the label equals the parity
of the input, and it is 1 exactly when the number of 1-bits in the input
is odd, 0 otherwise. -/
theorem generator_label_is_parity (N seed : ℕ) :
    (booleanDatasetGenerator N seed).2 = parity (booleanDatasetGenerator N seed).1 ∧
    ((booleanDatasetGenerator N seed).2 = 1 ↔
      Odd (((booleanDatasetGenerator N seed).1).count true)) ∧
    ((booleanDatasetGenerator N seed).2 = 0 ↔
      ¬ Odd (((booleanDatasetGenerator N seed).1).count true)) := by
  refine ⟨rfl, ?_, ?_⟩
  · exact parity_eq_one_iff _
  · exact parity_eq_zero_iff _

/-- C2: the sequential RNN-style formulation, folding two-input XOR over
the bits starting from initial state 0, computes exactly the parity
function: its result equals parity and is 1 iff the number of 1-bits in
the list is odd. -/
theorem rnn_formulation_computes_parity (xs : List Bool) :
    rnnParity xs = parity xs ∧ (rnnParity xs = 1 ↔ Odd (xs.count true)) := by
  have h : rnnParity xs = parity xs := by
    rw [rnnParity, rnnParity_foldl xs 0 (by omega), parity, Nat.zero_add]
  exact ⟨h, by rw [h]; exact parity_eq_one_iff xs⟩

/-- C3: on a two-bit input the parity function is exactly the XOR truth
table: it returns 1 iff the two bits differ, and on the four concrete
inputs it returns 0, 1, 1, 0 respectively. -/
theorem parity_two_bit_is_xor :
    (∀ x y : Bool, parity [x, y] = 1 ↔ x ≠ y) ∧
    parity [false, false] = 0 ∧ parity [false, true] = 1 ∧
    parity [true, false] = 1 ∧ parity [true, true] = 0 := by
  refine ⟨?_, rfl, rfl, rfl, rfl⟩
  decide

/-- Modelled from the spec: the evaluation loop of the training and
evaluation scripts (trainer.py is not in the repository sources).  It
walks the labeled examples once, counting correct predictions and
evaluated examples. -/
def evalLoop {α : Type} (model : α → ℕ) (examples : List (α × ℕ)) : ℕ × ℕ :=
  examples.foldl
    (fun ct e => (if model e.1 = e.2 then ct.1 + 1 else ct.1, ct.2 + 1)) (0, 0)

/-- Modelled from the spec: the accuracy tabulated by the evaluation loop,
the quotient of its counter of correct predictions by its counter of
evaluated examples. -/
def tabulatedAccuracy {α : Type} (model : α → ℕ)
    (examples : List (α × ℕ)) : ℚ :=
  ((evalLoop model examples).1 : ℚ) / ((evalLoop model examples).2 : ℚ)

/-- The number of labeled examples on which the model prediction matches
the label. -/
def matchCount {α : Type} (model : α → ℕ) (examples : List (α × ℕ)) : ℕ :=
  (examples.filter (fun e => model e.1 == e.2)).length

/-- A model is a perfect representation over a list of labeled examples
when its prediction equals the label on every evaluated example. -/
def perfectRepresentation {α : Type} (model : α → ℕ)
    (examples : List (α × ℕ)) : Prop :=
  ∀ e ∈ examples, model e.1 = e.2

lemma evalLoop_eq {α : Type} (model : α → ℕ) (examples : List (α × ℕ)) :
    evalLoop model examples = (matchCount model examples, examples.length) := by
  suffices h : ∀ (l : List (α × ℕ)) (c t : ℕ),
      l.foldl
          (fun ct e => (if model e.1 = e.2 then ct.1 + 1 else ct.1, ct.2 + 1))
          (c, t)
        = (c + matchCount model l, t + l.length) by
    simpa using h examples 0 0
  intro l
  induction l with
  | nil => intro c t; simp [matchCount]
  | cons e es ih =>
      intro c t
      by_cases h : model e.1 = e.2
      · simp [List.foldl_cons, h, ih, matchCount, List.filter_cons]
        omega
      · simp [List.foldl_cons, h, ih, matchCount, List.filter_cons]
        omega

lemma matchCount_le_length {α : Type} (model : α → ℕ)
    (examples : List (α × ℕ)) : matchCount model examples ≤ examples.length :=
  List.length_filter_le _ examples

/-- C5: for every model and non-empty evaluation set, the accuracy the
evaluation loop tabulates equals the number of examples where prediction
matches label divided by the number of evaluated examples, and this value
lies between 0 and 1 inclusive. -/
theorem accuracy_is_match_ratio {α : Type} (model : α → ℕ)
    (examples : List (α × ℕ)) (hne : examples ≠ []) :
    tabulatedAccuracy model examples
        = (matchCount model examples : ℚ) / (examples.length : ℚ) ∧
    0 ≤ tabulatedAccuracy model examples ∧
    tabulatedAccuracy model examples ≤ 1 := by
  have hlen : 0 < examples.length := List.length_pos.mpr hne
  have heq : tabulatedAccuracy model examples
      = (matchCount model examples : ℚ) / (examples.length : ℚ) := by
    rw [tabulatedAccuracy, evalLoop_eq]
  refine ⟨heq, ?_, ?_⟩
  · rw [heq]
    positivity
  · rw [heq, div_le_one (by exact_mod_cast hlen)]
    exact_mod_cast matchCount_le_length model examples

/-- C5 witness: a model that always predicts 0 on the two labeled
examples (0, 0) and (1, 1) has tabulated accuracy equal to its match
ratio, between 0 and 1. -/
theorem accuracy_is_match_ratio_witness :
    tabulatedAccuracy (fun _ : ℕ => 0) [(0, 0), (1, 1)]
        = (matchCount (fun _ : ℕ => 0) [(0, 0), (1, 1)] : ℚ)
            / (([(0, 0), (1, 1)] : List (ℕ × ℕ)).length : ℚ) ∧
    0 ≤ tabulatedAccuracy (fun _ : ℕ => 0) [(0, 0), (1, 1)] ∧
    tabulatedAccuracy (fun _ : ℕ => 0) [(0, 0), (1, 1)] ≤ 1 :=
  accuracy_is_match_ratio (fun _ : ℕ => 0) [(0, 0), (1, 1)] (by simp)

/-- C4: over a non-empty evaluated input space, a model is a perfect
representation of a boolean function f — its prediction equals the output
of f on every evaluated input — iff its tabulated accuracy over that
space is exactly 1, that is, 100 percent. -/
theorem perfect_representation_iff_accuracy_one {α : Type} (model f : α → ℕ)
    (inputs : List α) (hne : inputs ≠ []) :
    perfectRepresentation model (inputs.map (fun x => (x, f x))) ↔
      tabulatedAccuracy model (inputs.map (fun x => (x, f x))) = 1 := by
  have hlen : 0 < (inputs.map (fun x => (x, f x))).length := by
    simpa using List.length_pos.mpr hne
  have heq : tabulatedAccuracy model (inputs.map (fun x => (x, f x)))
      = (matchCount model (inputs.map (fun x => (x, f x))) : ℚ)
          / ((inputs.map (fun x => (x, f x))).length : ℚ) := by
    rw [tabulatedAccuracy, evalLoop_eq]
  rw [heq, div_eq_one_iff_eq (Nat.cast_ne_zero.mpr hlen.ne'), Nat.cast_inj,
    matchCount, List.filter_length_eq_length]
  simp [perfectRepresentation]

/-- C4 witness: the mod-2 model on the evaluated inputs 0 and 1 labeled
by mod 2 is a perfect representation iff its accuracy is 1. -/
theorem perfect_representation_iff_accuracy_one_witness :
    perfectRepresentation (fun n : ℕ => n % 2)
        (([0, 1] : List ℕ).map (fun x => (x, x % 2))) ↔
      tabulatedAccuracy (fun n : ℕ => n % 2)
        (([0, 1] : List ℕ).map (fun x => (x, x % 2))) = 1 :=
  perfect_representation_iff_accuracy_one (fun n : ℕ => n % 2)
    (fun n : ℕ => n % 2) [0, 1] (by simp)

/-- C6: every generated example pairs an input of exactly the configured
width, all of whose components are bits of value 0 or 1, with a label
that is 0 or 1, for every configured width and sample. -/
theorem generator_shape_invariant (N seed : ℕ) :
    (booleanDatasetGenerator N seed).1.length = N ∧
    (∀ b ∈ (booleanDatasetGenerator N seed).1, bitVal b = 0 ∨ bitVal b = 1) ∧
    ((booleanDatasetGenerator N seed).2 = 0 ∨
      (booleanDatasetGenerator N seed).2 = 1) := by
  have h1 : (booleanDatasetGenerator N seed).1 = sampleInput N seed := rfl
  have h2 : (booleanDatasetGenerator N seed).2
      = parity (sampleInput N seed) := rfl
  refine ⟨by rw [h1]; exact length_sampleInput N seed, ?_, ?_⟩
  · intro b _
    cases b
    · exact Or.inl rfl
    · exact Or.inr rfl
  · have := parity_lt_two (sampleInput N seed)
    omega

lemma bitVal_true : bitVal true = 1 := rfl

lemma bitVal_false : bitVal false = 0 := rfl

/-- A single perceptron with real weights w1 and w2, bias b and threshold
t computes the two-input XOR function when its output is 1 — the weighted
sum plus the bias exceeds the threshold — exactly on the bit pairs of
parity 1. -/
def perceptronComputesXOR (w1 w2 b t : ℝ) : Prop :=
  ∀ x y : Bool,
    (t < w1 * (bitVal x : ℝ) + w2 * (bitVal y : ℝ) + b ↔ parity [x, y] = 1)

/-- C7: no single perceptron — no real weights, bias and threshold for a
single linear threshold unit — computes the two-input XOR function on all
four input combinations. -/
theorem no_perceptron_computes_xor :
    ¬ ∃ w1 w2 b t : ℝ, perceptronComputesXOR w1 w2 b t := by
  rintro ⟨w1, w2, b, t, h⟩
  have h00 := h false false
  have h01 := h false true
  have h10 := h true false
  have h11 := h true true
  have p00 : parity [false, false] = 0 := by decide
  have p01 : parity [false, true] = 1 := by decide
  have p10 : parity [true, false] = 1 := by decide
  have p11 : parity [true, true] = 0 := by decide
  simp [bitVal_true, bitVal_false, p00, p01, p10, p11] at h00 h01 h10 h11
  linarith

/-- C8: flipping a single bit of the input flips the parity output: the
parity of the vector with bit i flipped is 1 minus the parity of the
vector. -/
theorem parity_flip_single_bit (xs : List Bool) (i : ℕ) (h : i < xs.length) :
    parity (xs.set i (! xs.get ⟨i, h⟩)) = 1 - parity xs := by
  induction xs generalizing i with
  | nil => simp at h
  | cons a t ih =>
      cases i with
      | zero =>
          cases a
          · simp [parity, List.count_cons]
            omega
          · simp [parity, List.count_cons]
            omega
      | succ n =>
          have hn : n < t.length := by simpa using h
          have ht := ih n hn
          simp only [parity, List.count_cons] at ht ⊢
          simp only [List.set_cons_succ, List.get_cons_succ,
            List.get_eq_getElem, List.count_cons] at ht ⊢
          cases a <;> simp
          all_goals omega

/-- C8 witness at the vector [true, false] and position 0: flipping the
first bit takes the parity from 1 to 0. -/
theorem parity_flip_single_bit_witness :
    parity (([true, false] : List Bool).set 0
        (! ([true, false] : List Bool).get ⟨0, by decide⟩))
      = 1 - parity [true, false] :=
  parity_flip_single_bit [true, false] 0 (by decide)

/-- C9: there are exactly 2 ^ N distinct N-bit input vectors, in
particular 256 for N = 8, 65536 for N = 16, 4294967296 for N = 32 and
18446744073709551616 for N = 64. -/
theorem numInputs_eq_two_pow :
    (∀ N, numInputs N = 2 ^ N) ∧ numInputs 8 = 256 ∧ numInputs 16 = 65536 ∧
    numInputs 32 = 4294967296 ∧ numInputs 64 = 18446744073709551616 := by
  have h : ∀ N, numInputs N = 2 ^ N := by
    intro N
    rw [numInputs]
    simp
  refine ⟨h, ?_, ?_, ?_, ?_⟩
  · rw [h 8]
    norm_num
  · rw [h 16]
    norm_num
  · rw [h 32]
    norm_num
  · rw [h 64]
    norm_num

end Booleans
